import Mathlib

/-!
# Verification of `visualize_hackernews.py`

A shallow embedding of the Hacker News pie-chart dashboard script.  The
program is a linear pipeline: load a CSV of stories, derive columns
(short title, domain, engagement ratio), aggregate a "top N plus other"
breakdown, and render pie charts.  We embed the data model and every
data-transforming operation; rendering (matplotlib drawing calls) has no
data contract and is not modelled.

Numeric cells are modelled with `ℚ` (exact arithmetic in place of the
script's floating point) so that sum and comparison facts are exact.
-/

namespace HNVisuals

open scoped List

/-- A CSV cell as pandas sees it after parsing: a numeric value, a
non-numeric string, or a missing value (NaN).  `num` covers exactly the
cells `pd.to_numeric` can coerce; `str` the ones it turns into NaN. -/
inductive Cell where
  | num (q : ℚ)
  | str (s : String)
  | missing
deriving DecidableEq

/-- `pd.to_numeric(_, errors="coerce")` on one cell: numeric cells keep
their value, everything else becomes missing (`none` for NaN). -/
def to_numeric : Cell → Option ℚ
  | .num q => some q
  | .str _ => none
  | .missing => none

/-- Python `str(...)` applied to a cell, as in `str(url)` / `str(title)`.
A missing value is the float NaN, whose string form is `"nan"`.  The
decimal rendering of a numeric cell is abstracted by `toString`; no
property below depends on its exact spelling. -/
def strOfCell : Cell → String
  | .num q => toString q
  | .str s => s
  | .missing => "nan"

/-- A raw CSV row of the input file, keyed by the four header columns. -/
structure RawRow where
  title : Cell
  url : Cell
  votes : Cell
  comments : Cell
deriving DecidableEq

/-- A row of the loaded table: Votes and Comments have been coerced to
numbers and are present (the loader dropped every other row). -/
structure Story where
  title : Cell
  url : Cell
  votes : ℚ
  comments : ℚ
deriving DecidableEq

/-- A raw row survives loading iff both Votes and Comments coerce. -/
def numericOk (r : RawRow) : Bool :=
  (to_numeric r.votes).isSome && (to_numeric r.comments).isSome

/-- The coercion applied to a surviving row (total function; on rows that
`numericOk` accepts the defaults are never used). -/
def coerceRow (r : RawRow) : Story :=
  { title := r.title, url := r.url,
    votes := (to_numeric r.votes).getD 0,
    comments := (to_numeric r.comments).getD 0 }

/-- `load_hackernews`: read the CSV, coerce Votes and Comments with
`pd.to_numeric(errors="coerce")`, and `dropna` on those two columns. -/
def load_hackernews (rows : List RawRow) : List Story :=
  rows.filterMap fun r =>
    match to_numeric r.votes, to_numeric r.comments with
    | some v, some c => some { title := r.title, url := r.url, votes := v, comments := c }
    | _, _ => none

/-- The two fatal failures of `main`: `FileNotFoundError` when the
dataset path does not exist, `ValueError` when no valid numeric row
survives loading. -/
inductive PipelineError where
  | datasetNotFound
  | emptyDataset
deriving DecidableEq

/-- `main`: the input file is `none` when the path does not exist
(`Path.exists` is false) and `some rows` with the parsed CSV rows
otherwise.  Mirrors the existence check, the load, and the emptiness
check; on success the pipeline proceeds with the loaded table. -/
def main (file : Option (List RawRow)) : Except PipelineError (List Story) :=
  match file with
  | none => .error .datasetNotFound
  | some rows =>
    let df := load_hackernews rows
    if df.isEmpty then .error .emptyDataset else .ok df

/-! ## The aggregator `_aggregate_top_share`

`df.sort_values(value_col, ascending=False)` is called with pandas's
default `kind="quicksort"`, whose tie order is unspecified (only the
`mergesort`/`stable` kinds are documented stable).  The sort is
modelled after pandas's `nargsort` shape — the reverse of an ascending
argsort of the reversed frame — with `List.mergeSort` standing in for
the argsort; the model therefore fixes one tie order the program does
not promise, and every theorem below uses only the permutation,
sortedness and length facts of the sort, which hold for every kind.
The aggregator works on the projected `[[label_col, value_col]]`
pairs. -/

/-- Ascending comparison on the value column. -/
def leValue (a b : String × ℚ) : Bool := a.2 ≤ b.2

/-- `df.sort_values(value_col, ascending=False)` projected to
(label, value) pairs: reverse, stable ascending sort, reverse. -/
def sortValuesDesc (rows : List (String × ℚ)) : List (String × ℚ) :=
  (rows.reverse.mergeSort leValue).reverse

/-- `ordered.head(top_n)`. -/
def aggTop (rows : List (String × ℚ)) (top_n : ℕ) : List (String × ℚ) :=
  (sortValuesDesc rows).take top_n

/-- `remainder = ordered[value_col].sum() - top[value_col].sum()`. -/
def aggRemainder (rows : List (String × ℚ)) (top_n : ℕ) : ℚ :=
  ((sortValuesDesc rows).map Prod.snd).sum - ((aggTop rows top_n).map Prod.snd).sum

/-- The slice rows of `_aggregate_top_share`: the first `top_n` sorted
rows, with a synthetic `(other_label, remainder)` row appended when the
remainder is positive. -/
def aggSlices (rows : List (String × ℚ)) (top_n : ℕ)
    (other_label : String) : List (String × ℚ) :=
  if 0 < aggRemainder rows top_n then
    aggTop rows top_n ++ [(other_label, aggRemainder rows top_n)]
  else aggTop rows top_n

/-- `_aggregate_top_share`: sort descending, keep the first `top_n`
rows, append the synthetic "other" row when the remainder is positive,
and return the parallel label and size lists. -/
def aggregateTopShare (rows : List (String × ℚ)) (top_n : ℕ)
    (other_label : String) : List String × List ℚ :=
  ((aggSlices rows top_n other_label).map Prod.fst,
   (aggSlices rows top_n other_label).map Prod.snd)

/-! ### Basic facts about the sort -/

theorem leValue_trans (a b c : String × ℚ) :
    leValue a b → leValue b c → leValue a c := by
  simp only [leValue, decide_eq_true_eq]
  exact le_trans

theorem leValue_total (a b : String × ℚ) : leValue a b || leValue b a := by
  simp only [leValue, Bool.or_eq_true, decide_eq_true_eq]
  exact le_total _ _

/-- The descending sort permutes its input. -/
theorem sortValuesDesc_perm (rows : List (String × ℚ)) :
    sortValuesDesc rows ~ rows := by
  unfold sortValuesDesc
  calc (rows.reverse.mergeSort leValue).reverse
      ~ rows.reverse.mergeSort leValue := List.reverse_perm _
    _ ~ rows.reverse := List.mergeSort_perm _ _
    _ ~ rows := List.reverse_perm _

/-- The descending sort really is descending on the value column. -/
theorem sortValuesDesc_sorted (rows : List (String × ℚ)) :
    (sortValuesDesc rows).Pairwise (fun a b => b.2 ≤ a.2) := by
  unfold sortValuesDesc
  rw [List.pairwise_reverse]
  have h := List.sorted_mergeSort leValue_trans leValue_total rows.reverse
  exact h.imp (by simp only [leValue, decide_eq_true_eq]; exact fun h => h)

theorem length_sortValuesDesc (rows : List (String × ℚ)) :
    (sortValuesDesc rows).length = rows.length := by
  simp [sortValuesDesc]

/-! ## Domain extraction

`urlparse(str(url)).netloc or "Unknown"` (line 87).  We embed the
network-location part of CPython's `urlsplit`: strip a leading
`scheme:` when the text before the first colon is a letter followed by
scheme characters, then, when the rest starts with `//`, the netloc is
everything up to the next `/`, `?` or `#`; otherwise the netloc is
empty.  The `or "Unknown"` idiom replaces an empty netloc with the
literal label. -/

/-- A character allowed after the first letter of a URL scheme
(CPython's `scheme_chars`: ASCII letters, digits, `+`, `-`, `.`). -/
def schemeChar (c : Char) : Bool :=
  c.isAlphanum || c == '+' || c == '-' || c == '.'

/-- Split a character list at its first colon, when there is one. -/
def splitAtColon : List Char → Option (List Char × List Char)
  | [] => none
  | c :: rest =>
    if c = ':' then some ([], rest)
    else (splitAtColon rest).map fun p => (c :: p.1, p.2)

/-- Drop a leading `scheme:` when the prefix before the first colon is
non-empty, starts with a letter and continues with scheme characters
(`url.find(':') = i > 0` and the membership loop in `urlsplit`). -/
def stripScheme (cs : List Char) : List Char :=
  match splitAtColon cs with
  | none => cs
  | some (pre, post) =>
    match pre with
    | [] => cs
    | c :: rest => if c.isAlpha && rest.all schemeChar then post else cs

/-- The netloc characters: present only when the (scheme-stripped) URL
starts with `//`, and then run until the next `/`, `?` or `#`. -/
def netlocChars (cs : List Char) : List Char :=
  match stripScheme cs with
  | '/' :: '/' :: rest => rest.takeWhile fun c => !(c == '/' || c == '?' || c == '#')
  | _ => []

/-- `urlparse(url).netloc`. -/
def urlNetloc (url : String) : String := ⟨netlocChars url.data⟩

/-- `urlparse(url).netloc or "Unknown"`. -/
def domainOf (url : String) : String :=
  let n := urlNetloc url
  if n = "" then "Unknown" else n

/-- The per-row lambda of line 87: `urlparse(str(url)).netloc or "Unknown"`. -/
def domainOfStory (s : Story) : String := domainOf (strOfCell s.url)

/-! ## Group-by-sum over domains

`df.groupby("Domain", as_index=False)["Votes"].sum()` (line 88): one
output row per distinct domain, keys in ascending sorted order (pandas
`sort=True` default), each paired with the sum of the Votes of its
group. -/

/-- Group (key, value) pairs by key and sum the values per key; keys
appear once each, sorted ascending. -/
def groupbySumVotes (rows : List (String × ℚ)) : List (String × ℚ) :=
  ((rows.map Prod.fst).dedup.mergeSort (fun a b => decide (a ≤ b))).map
    fun k => (k, ((rows.filter fun p => decide (p.1 = k)).map Prod.snd).sum)

/-- Lines 87–88 together: assign each story its domain label and group
the table by domain, summing votes. -/
def groupDomainVotes (tbl : List Story) : List (String × ℚ) :=
  groupbySumVotes (tbl.map fun s => (domainOfStory s, s.votes))

/-! ## Engagement classifier

Line 96: `EngagementRatio = Comments / Votes.replace({0: NA})` followed
by `dropna`, so the ratio is defined exactly on rows whose Votes column
is non-zero.  Lines 102–107: `pd.cut` with `bins=[0, 0.5, 1.0, inf]`
and `include_lowest=True`; with pandas's default `right=True` the bins
are `[0, 0.5]`, `(0.5, 1.0]` and `(1.0, +inf)`, and values outside
every bin (negative ratios) become missing. -/

/-- The engagement ratio of one row: `Comments / Votes` with zero Votes
replaced by missing before the division, then `dropna`. -/
def engagementRatio (s : Story) : Option ℚ :=
  if s.votes = 0 then none else some (s.comments / s.votes)

/-- `pd.cut(r, bins=[0, 0.5, 1.0, inf], labels=..., include_lowest=True)`
on one value: right-closed bins, the first one also left-closed. -/
def engagementBucket (r : ℚ) : Option String :=
  if 0 ≤ r ∧ r ≤ 1/2 then some "Quiet (<0.5)"
  else if 1/2 < r ∧ r ≤ 1 then some "Balanced (0.5-1.0)"
  else if 1 < r then some "Buzzing (>1.0)"
  else none

/-- The fixed category order of the `pd.cut` labels, which is also the
order `value_counts().sort_index()` reports. -/
def bucketNames : List String :=
  ["Quiet (<0.5)", "Balanced (0.5-1.0)", "Buzzing (>1.0)"]

/-- The defined engagement ratios of a table (the `EngagementRatio`
column after `dropna`). -/
def definedRatios (tbl : List Story) : List ℚ :=
  tbl.filterMap engagementRatio

/-- Lines 95–110: when no row has a defined ratio the classifier
signals "no data" (`engagement.empty`, the placeholder branch);
otherwise it reports the three buckets in fixed order with the count of
ratios falling in each, as floats. -/
def engagementBuckets (tbl : List Story) : Option (List String × List ℚ) :=
  if (definedRatios tbl).isEmpty then none
  else some (bucketNames,
    bucketNames.map fun lbl =>
      (((definedRatios tbl).countP fun r => decide (engagementBucket r = some lbl) : ℕ) : ℚ))

/-! ## Title shortening

`_short_titles` applies `textwrap.shorten(str(title), width, "…")` to
each title.  The stdlib call is modelled by its documented behaviour:
collapse whitespace runs, return the text unchanged when it fits, and
otherwise keep the longest word prefix that fits together with the
ellipsis placeholder.  No claim depends on the exact truncation; the
model only has to be a pure per-title function. -/

/-- Longest prefix of `words` whose space-joined length stays within
`width` minus the one-character placeholder; `curLen` is the length
joined so far. -/
def fitWords (width : ℕ) : ℕ → List String → List String
  | _, [] => []
  | curLen, w :: ws =>
    let newLen := if curLen = 0 then w.length else curLen + 1 + w.length
    if newLen + 1 ≤ width then w :: fitWords width newLen ws else []

/-- `textwrap.shorten(t, width, placeholder="…")`, modelled. -/
def shorten (width : ℕ) (t : String) : String :=
  let words := (t.split fun c => c.isWhitespace).filter fun w => w ≠ ""
  let collapsed := " ".intercalate words
  if collapsed.length ≤ width then collapsed
  else " ".intercalate (fitWords width 0 words) ++ "…"

/-- `_short_titles(series, width)`. -/
def short_titles (titles : List Cell) (width : ℕ) : List String :=
  titles.map fun t => shorten width (strOfCell t)

/-! ## The renderer pipeline and in-place mutation

To settle the frame-effect claim we give the data-frame identity a
heap: a store of frames addressed by reference, where `.copy()`
allocates a fresh reference and column assignment (`df[col] = ...`)
writes through a reference.  `plot_visualizations` receives the
caller's frame at reference 0, immediately rebinds `df` to a copy
(line 71), and performs both column assignments (lines 72 and 87) on
that copy; `df.assign(...)` (line 95) and `_aggregate_top_share`
(which works on `sort_values`/`.copy()` results, lines 24–25) allocate
nothing reachable from the caller. -/

/-- A data frame: the story rows plus the two derived columns a
renderer run may attach (absent until assigned). -/
structure DF where
  rows : List Story
  titleShort : Option (List String) := none
  domain : Option (List String) := none
deriving DecidableEq

/-- A store of frames; references are indices. -/
abbrev Store := List DF

/-- Read a reference. -/
def dfGet (store : Store) (r : ℕ) : DF := store.getD r { rows := [] }

/-- `df.copy()`: allocate a fresh reference holding the same frame. -/
def dfCopy (store : Store) (r : ℕ) : Store × ℕ :=
  (store ++ [dfGet store r], store.length)

/-- In-place column assignment `df[col] = ...`: write through `r`. -/
def dfSet (store : Store) (r : ℕ) (v : DF) : Store := store.set r v

/-- The store-level trace of `plot_visualizations`: the caller's frame
sits at reference 0; line 71 copies it, line 72 assigns `TitleShort` on
the copy, line 87 assigns `Domain` on the copy; every other step
(aggregation, group-by, `assign`/`dropna`, drawing) reads purely. -/
def plot_visualizations (caller : DF) : Store :=
  let s0 : Store := [caller]
  let c := dfCopy s0 0
  let s1 := c.1
  let df := c.2
  let d1 := dfGet s1 df
  let s2 := dfSet s1 df
    { d1 with titleShort := some (short_titles (d1.rows.map Story.title) 40) }
  let d2 := dfGet s2 df
  let s3 := dfSet s2 df
    { d2 with domain := some (d2.rows.map domainOfStory) }
  s3

/-! ## Claims -/

/-- C1, counterexample: the claim maps every ratio in `[0.5, 1.0)` to
"Balanced (0.5-1.0)", but `pd.cut` with its default `right=True` closes
the bins on the right, so the code puts the ratio `0.5` in
"Quiet (<0.5)". -/
theorem C1_counterexample :
    engagementBucket (1/2) = some "Quiet (<0.5)" ∧
    engagementBucket (1/2) ≠ some "Balanced (0.5-1.0)" := by
  have h : engagementBucket (1/2) = some "Quiet (<0.5)" := by
    norm_num [engagementBucket]
  refine ⟨h, ?_⟩
  rw [h]
  exact fun hc => absurd (Option.some.inj hc) (by decide)

/-- C1 (amended): every defined ratio `r ≥ 0` falls in exactly one of
three buckets whose intervals are closed on the right and open on the
left, the first also containing its lower bound: `[0, 0.5]` maps to
"Quiet (<0.5)", `(0.5, 1.0]` to "Balanced (0.5-1.0)" and `(1.0, +∞)`
to "Buzzing (>1.0)". -/
theorem C1_engagement_bucket_intervals (r : ℚ) (hr : 0 ≤ r) :
    (engagementBucket r = some "Quiet (<0.5)" ↔ r ≤ 1/2) ∧
    (engagementBucket r = some "Balanced (0.5-1.0)" ↔ 1/2 < r ∧ r ≤ 1) ∧
    (engagementBucket r = some "Buzzing (>1.0)" ↔ 1 < r) ∧
    (engagementBucket r).isSome = true := by
  unfold engagementBucket
  split_ifs with h1 h2 h3
  · refine ⟨iff_of_true rfl h1.2, iff_of_false ?_ ?_, iff_of_false ?_ ?_, rfl⟩
    · exact fun h => absurd (Option.some.inj h) (by decide)
    · exact fun hb => by linarith [h1.2, hb.1]
    · exact fun h => absurd (Option.some.inj h) (by decide)
    · exact fun hb => by linarith [h1.2]
  · refine ⟨iff_of_false ?_ ?_, iff_of_true rfl h2, iff_of_false ?_ ?_, rfl⟩
    · exact fun h => absurd (Option.some.inj h) (by decide)
    · exact fun hle => by linarith [h2.1]
    · exact fun h => absurd (Option.some.inj h) (by decide)
    · exact fun hgt => by linarith [h2.2]
  · refine ⟨iff_of_false ?_ ?_, iff_of_false ?_ ?_, iff_of_true rfl h3, rfl⟩
    · exact fun h => absurd (Option.some.inj h) (by decide)
    · exact fun hle => by linarith
    · exact fun h => absurd (Option.some.inj h) (by decide)
    · exact fun hb => by linarith [hb.2]
  · exfalso
    rcases not_and_or.mp h1 with h | h
    · exact h hr
    · have hgt : 1/2 < r := not_le.mp h
      rcases not_and_or.mp h2 with h' | h'
      · exact h' hgt
      · exact h3 (not_le.mp h')

/-- C1, witness: the ratio 1 is assigned to "Balanced (0.5-1.0)". -/
theorem C1_witness : engagementBucket 1 = some "Balanced (0.5-1.0)" :=
  ((C1_engagement_bucket_intervals 1 (by norm_num)).2.1).mpr (by norm_num)

/-- The remainder equals the sum of the values the head cut off. -/
theorem aggRemainder_eq_sum_drop (rows : List (String × ℚ)) (n : ℕ) :
    aggRemainder rows n = (((sortValuesDesc rows).map Prod.snd).drop n).sum := by
  unfold aggRemainder aggTop
  rw [List.map_take]
  have h := List.sum_take_add_sum_drop ((sortValuesDesc rows).map Prod.snd) n
  linarith

/-- With non-negative values the remainder is never negative. -/
theorem aggRemainder_nonneg (rows : List (String × ℚ)) (n : ℕ)
    (hpos : ∀ p ∈ rows, 0 ≤ p.2) : 0 ≤ aggRemainder rows n := by
  rw [aggRemainder_eq_sum_drop]
  apply List.sum_nonneg
  intro x hx
  have hx' : x ∈ (sortValuesDesc rows).map Prod.snd := List.mem_of_mem_drop hx
  obtain ⟨p, hp, rfl⟩ := List.mem_map.mp hx'
  exact hpos p ((sortValuesDesc_perm rows).mem_iff.mp hp)

/-- The sorted values sum to the input values. -/
theorem sum_sortValuesDesc (rows : List (String × ℚ)) :
    ((sortValuesDesc rows).map Prod.snd).sum = (rows.map Prod.snd).sum :=
  List.Perm.sum_eq ((sortValuesDesc_perm rows).map Prod.snd)

/-- C3: with non-negative values in the value column, the sizes the
aggregator returns sum to the total of the value column over all rows,
whether or not an "Other" slice is appended (exact arithmetic stands in
for the floating-point tolerance). -/
theorem C3_sizes_sum_to_total (rows : List (String × ℚ)) (n : ℕ) (lbl : String)
    (hpos : ∀ p ∈ rows, 0 ≤ p.2) :
    ((aggregateTopShare rows n lbl).2).sum = (rows.map Prod.snd).sum := by
  have hdef : aggRemainder rows n =
      ((sortValuesDesc rows).map Prod.snd).sum - ((aggTop rows n).map Prod.snd).sum := rfl
  have htotal := sum_sortValuesDesc rows
  unfold aggregateTopShare aggSlices
  by_cases hrem : 0 < aggRemainder rows n
  · rw [if_pos hrem]
    simp only [List.map_append, List.sum_append, List.map_cons, List.map_nil,
      List.sum_cons, List.sum_nil]
    linarith
  · rw [if_neg hrem]
    have h0 : aggRemainder rows n = 0 :=
      le_antisymm (not_lt.mp hrem) (aggRemainder_nonneg rows n hpos)
    have := h0.symm.trans hdef
    linarith

/-- C3, witness: on the spec's three-story table with top 2 by votes
the slice sizes sum to the 160 total votes. -/
theorem C3_witness :
    ((aggregateTopShare [("A", (100 : ℚ)), ("B", 50), ("C", 10)] 2 "Other stories").2).sum =
      (([("A", (100 : ℚ)), ("B", 50), ("C", 10)].map Prod.snd).sum) :=
  C3_sizes_sum_to_total [("A", (100 : ℚ)), ("B", 50), ("C", 10)] 2 "Other stories"
    (by norm_num)

/-- C4: the aggregator's label and size lists always have equal length;
that length is `min top_n row_count` when the remainder is not positive
and one more when it is; with `top_n ≥ row_count` the remainder is zero,
so no "Other" slice appears and the length is the row count; and the
empty table yields two empty lists. -/
theorem C4_output_length (rows : List (String × ℚ)) (n : ℕ) (lbl : String) :
    ((aggregateTopShare rows n lbl).1.length = (aggregateTopShare rows n lbl).2.length) ∧
    (0 < aggRemainder rows n →
      (aggregateTopShare rows n lbl).2.length = min n rows.length + 1) ∧
    (¬ 0 < aggRemainder rows n →
      (aggregateTopShare rows n lbl).2.length = min n rows.length) ∧
    (rows.length ≤ n → aggRemainder rows n = 0 ∧
      (aggregateTopShare rows n lbl).2.length = rows.length) ∧
    (rows = [] → aggregateTopShare rows n lbl = ([], [])) := by
  have hlen : (aggTop rows n).length = min n rows.length := by
    simp [aggTop, List.length_take, length_sortValuesDesc]
  refine ⟨by simp [aggregateTopShare], ?_, ?_, ?_, ?_⟩
  · intro hrem
    simp [aggregateTopShare, aggSlices, if_pos hrem, hlen]
  · intro hrem
    simp [aggregateTopShare, aggSlices, if_neg hrem, hlen]
  · intro hle
    have htake : aggTop rows n = sortValuesDesc rows := by
      apply List.take_of_length_le
      rw [length_sortValuesDesc]
      exact hle
    have h0 : aggRemainder rows n = 0 := by
      unfold aggRemainder
      rw [htake]
      ring
    refine ⟨h0, ?_⟩
    simp [aggregateTopShare, aggSlices, h0, hlen, Nat.min_eq_right hle]
  · rintro rfl
    simp [aggregateTopShare, aggSlices, aggRemainder, aggTop, sortValuesDesc]

/-- C4, closed instance: the empty table yields two empty lists. -/
theorem C4_witness :
    aggregateTopShare ([] : List (String × ℚ)) 5 "Other" = ([], []) :=
  (C4_output_length [] 5 "Other").2.2.2.2 rfl

/-- C8: with non-negative values, the sizes are ordered descending
except for the synthetic "Other" size, which is always the last element
when present (even when it exceeds earlier sizes): the non-"Other"
prefix is always sorted descending, and without an "Other" slice the
whole size list is. -/
theorem C8_sizes_descending (rows : List (String × ℚ)) (n : ℕ) (lbl : String)
    (hpos : ∀ p ∈ rows, 0 ≤ p.2) :
    (0 < aggRemainder rows n →
      (aggregateTopShare rows n lbl).2 =
        ((aggTop rows n).map Prod.snd) ++ [aggRemainder rows n] ∧
      ((aggTop rows n).map Prod.snd).Pairwise (fun a b => b ≤ a)) ∧
    (¬ 0 < aggRemainder rows n →
      ((aggregateTopShare rows n lbl).2).Pairwise (fun a b => b ≤ a)) := by
  have hsorted : ((aggTop rows n).map Prod.snd).Pairwise (fun a b => b ≤ a) := by
    rw [List.pairwise_map]
    exact ((sortValuesDesc_sorted rows).sublist (List.take_sublist n _))
  constructor
  · intro hrem
    constructor
    · simp [aggregateTopShare, aggSlices, if_pos hrem]
    · exact hsorted
  · intro hrem
    simpa [aggregateTopShare, aggSlices, if_neg hrem] using hsorted

/-- C8, witness: on a concrete descending table without remainder the
whole size list is descending. -/
theorem C8_witness :
    ((aggregateTopShare [("A", (2 : ℚ)), ("B", 1)] 5 "Other").2).Pairwise
      (fun a b => b ≤ a) :=
  (C8_sizes_descending [("A", (2 : ℚ)), ("B", 1)] 5 "Other" (by norm_num)).2
    (by rw [aggRemainder_eq_sum_drop]; norm_num [sortValuesDesc, List.mergeSort, List.merge, leValue])

/-- A row failing numeric validation is dropped by the loader. -/
theorem load_cons_of_invalid (r : RawRow) (rs : List RawRow)
    (h : numericOk r = false) :
    load_hackernews (r :: rs) = load_hackernews rs := by
  unfold load_hackernews
  rw [List.filterMap_cons]
  rcases hv : to_numeric r.votes with _ | v
  · simp [hv]
  · rcases hc : to_numeric r.comments with _ | c
    · simp [hv, hc]
    · rw [numericOk, hv, hc] at h
      simp at h

/-- A row passing numeric validation is kept and coerced. -/
theorem load_cons_of_valid (r : RawRow) (rs : List RawRow)
    (h : numericOk r = true) :
    load_hackernews (r :: rs) = coerceRow r :: load_hackernews rs := by
  unfold load_hackernews
  rw [List.filterMap_cons]
  rcases hv : to_numeric r.votes with _ | v
  · rw [numericOk, hv] at h
    simp at h
  · rcases hc : to_numeric r.comments with _ | c
    · rw [numericOk, hv, hc] at h
      simp at h
    · simp [hv, hc, coerceRow]

/-- The loader keeps, in order, exactly the rows whose Votes and
Comments cells are both numeric, coercing each. -/
theorem load_row_eq (rows : List RawRow) :
    load_hackernews rows = (rows.filter numericOk).map coerceRow := by
  induction rows with
  | nil => rfl
  | cons r rs ih =>
    rw [List.filter_cons]
    by_cases h : numericOk r = true
    · rw [load_cons_of_valid r rs h, h]
      simp [ih]
    · have hf : numericOk r = false := by
        revert h
        cases numericOk r <;> simp
      rw [load_cons_of_invalid r rs hf, hf]
      simp [ih]

/-- The loaded table is empty exactly when no raw row validates. -/
theorem load_eq_nil_iff (rows : List RawRow) :
    load_hackernews rows = [] ↔ ∀ r ∈ rows, numericOk r = false := by
  rw [load_row_eq]
  simp

/-- C5: the pipeline fails with the "dataset not found" error exactly
when the input file is absent, and with the "no valid rows" error
exactly when the file is present but every row fails numeric validation
of Votes and Comments; rows failing validation are silently dropped, and
when at least one row validates the pipeline succeeds with the filtered
table. -/
theorem C5_failure_modes :
    (∀ file, main file = .error .datasetNotFound ↔ file = none) ∧
    (∀ rows, load_hackernews rows = (rows.filter numericOk).map coerceRow) ∧
    (∀ rows, main (some rows) = .error .emptyDataset ↔
      ∀ r ∈ rows, numericOk r = false) ∧
    (∀ rows, (∃ r ∈ rows, numericOk r = true) →
      main (some rows) = .ok (load_hackernews rows)) := by
  refine ⟨?_, load_row_eq, ?_, ?_⟩
  · intro file
    cases file with
    | none => simp [main]
    | some rows =>
      by_cases h : (load_hackernews rows).isEmpty <;> simp [main, h]
  · intro rows
    by_cases h : (load_hackernews rows).isEmpty
    · have hnil : load_hackernews rows = [] := by simpa using h
      simp only [main, if_pos h]
      exact iff_of_true trivial ((load_eq_nil_iff rows).mp hnil)
    · simp only [main, if_neg h]
      refine iff_of_false (by simp) fun hall => ?_
      exact h (by simp [(load_eq_nil_iff rows).mpr hall])
  · rintro rows ⟨r, hr, hok⟩
    have h : ¬ (load_hackernews rows).isEmpty := by
      intro h
      have := ((load_eq_nil_iff rows).mp (by simpa using h)) r hr
      rw [hok] at this
      exact absurd this (by simp)
    simp [main, h]

/-- C5, closed instance: a file with one non-numeric-Votes row and one
valid row loads successfully, dropping exactly the bad row. -/
theorem C5_witness :
    main (some [⟨Cell.str "t1", Cell.str "u1", Cell.str "N/A", Cell.num 3⟩,
                ⟨Cell.str "t2", Cell.str "u2", Cell.num 5, Cell.num 2⟩]) =
      .ok (load_hackernews
        [⟨Cell.str "t1", Cell.str "u1", Cell.str "N/A", Cell.num 3⟩,
         ⟨Cell.str "t2", Cell.str "u2", Cell.num 5, Cell.num 2⟩]) :=
  C5_failure_modes.2.2.2 _
    ⟨⟨Cell.str "t2", Cell.str "u2", Cell.num 5, Cell.num 2⟩, by decide, by decide⟩

/-- C6: the domain extractor returns the network-location component of
the URL (host, optionally with port) and the literal label "Unknown"
exactly when the parse yields no such component; on the spec's example
URL it returns `news.ycombinator.com`, and the empty URL maps to
"Unknown". -/
theorem C6_domain_extraction :
    urlNetloc "https://news.ycombinator.com/item?id=1" = "news.ycombinator.com" ∧
    domainOf "https://news.ycombinator.com/item?id=1" = "news.ycombinator.com" ∧
    (∀ url, urlNetloc url = "" → domainOf url = "Unknown") ∧
    (∀ url, urlNetloc url ≠ "" → domainOf url = urlNetloc url) ∧
    domainOf "" = "Unknown" := by
  refine ⟨by decide, by decide, ?_, ?_, by decide⟩
  · intro url h
    simp [domainOf, h]
  · intro url h
    simp [domainOf, h]

/-- C6, closed instance: a URL with a port keeps the port in its
domain label. -/
theorem C6_witness :
    domainOf "http://x.com:8080/a" = urlNetloc "http://x.com:8080/a" :=
  C6_domain_extraction.2.2.2.1 "http://x.com:8080/a" (by decide)

/-- A row's engagement ratio is undefined exactly on zero Votes. -/
theorem engagementRatio_eq_none_iff (s : Story) :
    engagementRatio s = none ↔ s.votes = 0 := by
  unfold engagementRatio
  split_ifs with h <;> simp [h]

/-- C7: with the non-negative Votes the loader's data model guarantees,
the ratio `Comments / Votes` is defined exactly for rows with positive
Votes — zero-Votes rows are excluded rather than treated as ratio 0 —
and the classifier signals "no data" (`none`) exactly when no row has a
defined ratio. -/
theorem C7_ratio_only_for_positive_votes (tbl : List Story)
    (hpos : ∀ s ∈ tbl, 0 ≤ s.votes) :
    (∀ s ∈ tbl, engagementRatio s =
      if 0 < s.votes then some (s.comments / s.votes) else none) ∧
    (engagementBuckets tbl = none ↔ ∀ s ∈ tbl, ¬ 0 < s.votes) := by
  have hzero : ∀ s ∈ tbl, (s.votes = 0 ↔ ¬ 0 < s.votes) := by
    intro s hs
    constructor
    · intro h
      rw [h]
      exact lt_irrefl 0
    · intro h
      exact le_antisymm (not_lt.mp h) (hpos s hs)
  constructor
  · intro s hs
    unfold engagementRatio
    by_cases h : s.votes = 0
    · rw [if_pos h, if_neg (((hzero s hs).mp h))]
    · rw [if_neg h, if_pos ?_]
      exact lt_of_le_of_ne (hpos s hs) (Ne.symm h)
  · by_cases hemp : (definedRatios tbl).isEmpty
    · simp only [engagementBuckets, if_pos hemp]
      refine iff_of_true trivial fun s hs => ?_
      have hnil : definedRatios tbl = [] := by simpa using hemp
      have hnone := (List.filterMap_eq_nil_iff.mp hnil) s hs
      exact (hzero s hs).mp ((engagementRatio_eq_none_iff s).mp hnone)
    · simp only [engagementBuckets, if_neg hemp]
      refine iff_of_false (by simp) fun hall => ?_
      apply hemp
      have hnil : definedRatios tbl = [] := by
        apply List.filterMap_eq_nil_iff.mpr
        intro s hs
        exact (engagementRatio_eq_none_iff s).mpr ((hzero s hs).mpr (hall s hs))
      simp [hnil]

/-- C7, witness: a single zero-Votes row yields the "no data" signal. -/
theorem C7_witness :
    engagementBuckets [⟨Cell.str "t", Cell.str "u", 0, 3⟩] = none :=
  ((C7_ratio_only_for_positive_votes [⟨Cell.str "t", Cell.str "u", 0, 3⟩]
      (by decide)).2).mpr (by decide)

/-- C9: the renderer pipeline never mutates the caller's table in
place: after `plot_visualizations` runs, the caller's frame (reference
0) still holds the original table, and both derived-column assignments
(TitleShort, Domain) landed on the copy allocated at line 71 (reference
1); aggregation and the engagement `assign`/`dropna` are pure reads. -/
theorem C9_caller_table_unchanged (caller : DF) :
    (plot_visualizations caller).head? = some caller ∧
    plot_visualizations caller =
      [caller,
       { caller with
          titleShort := some (short_titles (caller.rows.map Story.title) 40),
          domain := some (caller.rows.map domainOfStory) }] :=
  ⟨rfl, rfl⟩

/-- C9, closed instance: an empty caller frame comes back unchanged. -/
theorem C9_witness :
    (plot_visualizations { rows := [] }).head? = some { rows := ([] : List Story) } :=
  (C9_caller_table_unchanged { rows := [] }).1

/-- Filtering the (domain, votes) projection by a key picks out the
votes of the stories with that domain. -/
theorem domain_votes_filter (tbl : List Story) (k : String) :
    (((tbl.map fun s => (domainOfStory s, s.votes)).filter
        fun p => decide (p.1 = k)).map Prod.snd) =
      (tbl.filter fun s => decide (domainOfStory s = k)).map Story.votes := by
  induction tbl with
  | nil => rfl
  | cons s rest ih =>
    by_cases h : domainOfStory s = k
    · simp [List.filter_cons, h, ih]
    · simp [List.filter_cons, h, ih]

/-- C10: a missing (NaN) URL cell is coerced to its string form "nan"
before parsing — the pipeline never fails on it — and a row is labelled
"Unknown" exactly when the string form of its URL cell parses to no
network-location component; every group-by-sum entry carries the vote
total of the stories with its domain, and when some story has a missing
URL the "Unknown" group is present with those votes counted in it. -/
theorem C10_missing_url_unknown :
    (∀ s : Story, domainOfStory s = domainOf (strOfCell s.url)) ∧
    strOfCell Cell.missing = "nan" ∧
    (∀ s : Story, s.url = Cell.missing → domainOfStory s = "Unknown") ∧
    (∀ c : Cell, urlNetloc (strOfCell c) ≠ "" →
      domainOf (strOfCell c) = urlNetloc (strOfCell c)) ∧
    (∀ tbl : List Story, ∀ p ∈ groupDomainVotes tbl,
      p.2 = ((tbl.filter fun s => decide (domainOfStory s = p.1)).map Story.votes).sum) ∧
    (∀ tbl : List Story, (∃ s ∈ tbl, s.url = Cell.missing) →
      ("Unknown",
          ((tbl.filter fun s => decide (domainOfStory s = "Unknown")).map Story.votes).sum)
        ∈ groupDomainVotes tbl) := by
  have hmiss : ∀ s : Story, s.url = Cell.missing → domainOfStory s = "Unknown" := by
    intro s h
    simp only [domainOfStory, h]
    decide
  refine ⟨fun s => rfl, rfl, hmiss, ?_, ?_, ?_⟩
  · intro c h
    simp [domainOf, h]
  · intro tbl p hp
    unfold groupDomainVotes groupbySumVotes at hp
    obtain ⟨k, hk, rfl⟩ := List.mem_map.mp hp
    simp only
    rw [domain_votes_filter]
  · rintro tbl ⟨s, hs, hurl⟩
    unfold groupDomainVotes groupbySumVotes
    have hkey : "Unknown" ∈
        ((tbl.map fun s => (domainOfStory s, s.votes)).map Prod.fst).dedup.mergeSort
          (fun a b => decide (a ≤ b)) := by
      rw [List.mem_mergeSort, List.mem_dedup, List.map_map]
      exact List.mem_map.mpr ⟨s, hs, by simp [Function.comp, hmiss s hurl]⟩
    refine List.mem_map.mpr ⟨"Unknown", hkey, ?_⟩
    rw [domain_votes_filter]

/-- C10, closed instance: a story whose URL cell is missing is grouped
under "Unknown". -/
theorem C10_witness :
    domainOfStory ⟨Cell.str "t", Cell.missing, 1, 2⟩ = "Unknown" :=
  C10_missing_url_unknown.2.2.1 _ rfl

end HNVisuals
